import Mathlib

/-!
Shallow embedding of `src/Filtro Media Movel/moving-average-filter.c`:
two PIC16F874 filter routines (CCS C, `#device adc=8`, unsigned `int8` /
`int16` arithmetic).

The first variant reads 5 ADC samples, accumulates them in a 16-bit
`sum_voltage`, divides by 5 and writes the 8-bit average to port D,
toggling strobe pin C0 around the emission.  The second variant reads 10
samples into `voltage[1..10]`, duplicates the edge samples into
`voltage[0]` and `voltage[11]`, and emits the median of each of the 10
overlapping triplets, with the same strobe toggling per emission.

8-bit values are modelled as `Nat` (the ADC yields 0..255); the 16-bit
accumulator applies `% 65536` at each addition exactly as the machine
would, and the narrowing store into the 8-bit `avg_voltage` applies
`% 256`.  The hardware side effects (ADC reads, port-D writes, pin-C0
levels, delays) are modelled as an explicit event trace.
-/

/-- Hardware-interaction events of the firmware, in program order. -/
inductive Event
  | setupAdcPorts
  | setupAdc
  | setAdcChannel (n : Nat)
  | delayUs (n : Nat)
  | delayMs (n : Nat)
  | readADC (v : Nat)
  | writeD (v : Nat)
  | setC0 (b : Bool)
deriving DecidableEq, Repr

/-- The port-D value carried by a `writeD` event, if any. -/
def writeValue : Event → Option Nat
  | .writeD v => some v
  | _ => none

/-- The port-D writes occurring in a trace, in order. -/
def writesOf (l : List Event) : List Nat :=
  l.filterMap writeValue

/-- Whether an event changes the level of strobe pin C0. -/
def isStrobeB : Event → Bool
  | .setC0 _ => true
  | _ => false

/-- Events of `output_d(v); output_low(PIN_C0); delay_ms(10);
output_high(PIN_C0);` — one emission of a reduced value (lines 28–31 and
76–79 of the source). -/
def emitEvents (v : Nat) : List Event :=
  [.writeD v, .setC0 false, .delayMs 10, .setC0 true]

/-- Events of the sampling loop: each iteration is `delay_ms(1);` followed
by one ADC read (lines 20–23 and 65–68); `vs` lists the values the ADC
returns. -/
def sampleEvents : List Nat → List Event
  | [] => []
  | v :: rest => .delayMs 1 :: .readADC v :: sampleEvents rest

/-- Consecutive emissions of the values `vs`. -/
def emits : List Nat → List Event
  | [] => []
  | v :: rest => emitEvents v ++ emits rest

/-- Events of the initialisation preceding the `while(1)` loop in both
variants (lines 11–15 and 57–61): ADC setup, a 100 µs settling delay, and
`output_high(PIN_C0)`. -/
def initEvents : List Event :=
  [.setupAdcPorts, .setupAdc, .setAdcChannel 0, .delayUs 100, .setC0 true]

/-- The 16-bit accumulation `sum_voltage += read_adc();` starting from
`sum_voltage = 0` (lines 18–23): each addition wraps modulo 2^16. -/
def sum_voltage (samples : List Nat) : Nat :=
  samples.foldl (fun s v => (s + v) % 65536) 0

/-- `avg_voltage = sum_voltage / 5;` (line 26): unsigned truncating
division, narrowed into an 8-bit variable. -/
def avg_voltage (samples : List Nat) : Nat :=
  sum_voltage samples / 5 % 256

/-- The `median` function of the source (lines 43–50): three pairwise
compare-and-swap steps on unsigned 8-bit values, returning the middle
slot. -/
def median (a b c : Nat) : Nat :=
  let p := if a > b then (b, a) else (a, b)
  let q := if p.1 > c then (c, p.1) else (p.1, c)
  let r := if p.2 > q.2 then (q.2, p.2) else (p.2, q.2)
  r.1

/-- `#define NUM_SAMPLES 10` (line 40). -/
def NUM_SAMPLES : Nat := 10

/-- The padded `voltage` array after the sampling and padding phase
(lines 65–71): samples occupy indices 1..10, `voltage[0] = voltage[1]`
and `voltage[11] = voltage[10]`. -/
def paddedVoltage (samples : List Nat) : List Nat :=
  samples.getD 0 0 :: samples ++ [samples.getD (NUM_SAMPLES - 1) 0]

/-- The ten medians computed by the filtering loop (lines 74–75) from an
arbitrary 12-element window `w`: the i-th output is
`median(w[i], w[i+1], w[i+2])` for `i = 0..9`. -/
def medianOutputsW (w : List Nat) : List Nat :=
  (List.range NUM_SAMPLES).map fun i =>
    median (w.getD i 0) (w.getD (i + 1) 0) (w.getD (i + 2) 0)

/-- The ten medians emitted in one outer-loop iteration of the median
variant on the sample list `samples`. -/
def medianOutputs (samples : List Nat) : List Nat :=
  medianOutputsW (paddedVoltage samples)

/-- Trace of one outer-loop iteration of the moving-average variant
(lines 17–32): sample 5 values, then emit the average. -/
def iterMA (samples : List Nat) : List Event :=
  sampleEvents samples ++ emitEvents (avg_voltage samples)

/-- Trace of one outer-loop iteration of the median variant
(lines 63–80): sample 10 values, pad, then emit the 10 triplet medians. -/
def iterMed (samples : List Nat) : List Event :=
  sampleEvents samples ++ emits (medianOutputs samples)

/-- Trace of a run of the moving-average variant through the iterations
whose sample lists are `wss`, preceded by initialisation. -/
def traceMA (wss : List (List Nat)) : List Event :=
  initEvents ++ (wss.map iterMA).flatten

/-- Trace of a run of the median variant through the iterations whose
sample lists are `wss`, preceded by initialisation. -/
def traceMed (wss : List (List Nat)) : List Event :=
  initEvents ++ (wss.map iterMed).flatten

/-- Every port-D write in the trace has a strobe-pin event strictly after
it. -/
def halfStrobed (l : List Event) : Prop :=
  ∀ pre v post, l = pre ++ Event.writeD v :: post → post.any isStrobeB = true

/-- Every port-D write in the trace has a strobe-pin event strictly
before it and one strictly after it. -/
def strobed (l : List Event) : Prop :=
  ∀ pre v post, l = pre ++ Event.writeD v :: post →
    pre.any isStrobeB = true ∧ post.any isStrobeB = true

/-- Index sets of the accesses to `voltage` in the median variant: the
sampling loop writes indices 1..NUM_SAMPLES (line 67), the padding writes
indices 0 and NUM_SAMPLES + 1 (lines 70–71), and the filtering loop reads
indices i, i+1, i+2 for i in 0..NUM_SAMPLES-1 (line 75). -/
def samplingWriteIndices : List Nat := (List.range NUM_SAMPLES).map (· + 1)

def paddingWriteIndices : List Nat := [0, NUM_SAMPLES + 1]

def filterReadIndices : List Nat :=
  (List.range NUM_SAMPLES).map (· ) ++
  (List.range NUM_SAMPLES).map (· + 1) ++
  (List.range NUM_SAMPLES).map (· + 2)

/-- Declared length of the `voltage` array (line 54). -/
def voltageLength : Nat := NUM_SAMPLES + 2

/-! ## Helper lemmas -/

/-- The sampling loop performs no port-D write. -/
theorem writesOf_sampleEvents (s : List Nat) : writesOf (sampleEvents s) = [] := by
  induction s with
  | nil => rfl
  | cons v rest ih => simp [sampleEvents, writesOf, writeValue] at ih ⊢; exact ih

/-- The port-D writes of consecutive emissions are exactly the emitted
values. -/
theorem writesOf_emits (vs : List Nat) : writesOf (emits vs) = vs := by
  induction vs with
  | nil => rfl
  | cons v rest ih =>
    simp [emits, emitEvents, writesOf, writeValue] at ih ⊢; exact ih

/-- The port-D writes of one median-variant iteration are exactly the ten
medians. -/
theorem writesOf_iterMed (s : List Nat) :
    writesOf (iterMed s) = medianOutputs s := by
  have h1 := writesOf_sampleEvents s
  have h2 := writesOf_emits (medianOutputs s)
  simp only [iterMed, writesOf, List.filterMap_append]
  simp only [writesOf] at h1 h2
  rw [h1, h2]
  rfl

/-- The compare-and-swap median is monotone in each argument. -/
theorem median_mono {a b c a2 b2 c2 : Nat} (ha : a ≤ a2) (hb : b ≤ b2)
    (hc : c ≤ c2) : median a b c ≤ median a2 b2 c2 := by
  simp only [median]
  split_ifs <;> omega

/-! ## Claims -/

/-- C1: for every 5 8-bit samples, the value written to the output port in
one moving-average iteration is the integer-truncated arithmetic mean of
the 5 samples. -/
theorem C1_moving_average_mean (a b c d e : Nat)
    (ha : a < 256) (hb : b < 256) (hc : c < 256) (hd : d < 256)
    (he : e < 256) :
    writesOf (iterMA [a, b, c, d, e]) = [(a + b + c + d + e) / 5] := by
  simp [iterMA, writesOf, sampleEvents, emitEvents, writeValue, avg_voltage,
    sum_voltage]
  omega

/-- C1 witness: the input stream [2,4,6,8,10] yields the emitted value 6. -/
theorem C1_moving_average_mean_witness :
    writesOf (iterMA [2, 4, 6, 8, 10]) = [6] :=
  C1_moving_average_mean 2 4 6 8 10 (by decide) (by decide) (by decide)
    (by decide) (by decide)

/-- C2: the median function returns the middle of its three 8-bit
arguments — the element that is neither the minimum nor the maximum — and
when two arguments are equal it returns that repeated value; in
particular median(5,5,9) = 5 and median(3,7,5) = 5. -/
theorem C2_median_middle (a b c : Nat)
    (ha : a < 256) (hb : b < 256) (hc : c < 256) :
    median a b c = a + b + c - max a (max b c) - min a (min b c) ∧
    (a = b → median a b c = a) ∧
    (b = c → median a b c = b) ∧
    (a = c → median a b c = a) ∧
    median 5 5 9 = 5 ∧ median 3 7 5 = 5 := by
  refine ⟨?_, ?_, ?_, ?_, by decide, by decide⟩ <;>
    (simp only [median]; split_ifs <;> omega)

/-- C2 witness: the claim instantiated at the example triplets. -/
theorem C2_median_middle_witness : median 5 5 9 = 5 ∧ median 3 7 5 = 5 :=
  ⟨(C2_median_middle 5 5 9 (by decide) (by decide) (by decide)).2.2.2.2.1,
   (C2_median_middle 3 7 5 (by decide) (by decide) (by decide)).2.2.2.2.2⟩

/-- C3: in one median-variant iteration over 10 samples, exactly 10
values are written to the output port, and the i-th written value is the
median of the triplet (padded[i], padded[i+1], padded[i+2]) of the
12-element padded window; on the stream [1,9,2,8,3,7,4,6,5,5] the ten
outputs are [1,2,8,3,7,4,6,5,5,5]. -/
theorem C3_median_iteration_outputs (s : List Nat) (hlen : s.length = 10) :
    (writesOf (iterMed s)).length = 10 ∧
    (∀ i, i < 10 →
      (writesOf (iterMed s)).getD i 0 =
        median ((paddedVoltage s).getD i 0) ((paddedVoltage s).getD (i + 1) 0)
          ((paddedVoltage s).getD (i + 2) 0)) ∧
    writesOf (iterMed [1, 9, 2, 8, 3, 7, 4, 6, 5, 5]) =
      [1, 2, 8, 3, 7, 4, 6, 5, 5, 5] := by
  rw [writesOf_iterMed]
  refine ⟨by simp [medianOutputs, medianOutputsW, NUM_SAMPLES], ?_, ?_⟩
  · intro i hi
    simp [medianOutputs, medianOutputsW, NUM_SAMPLES, List.getD,
      List.getElem?_map, List.getElem?_range, hi]
  · rw [writesOf_iterMed]
    decide

/-- C3 witness: the claim instantiated at the example stream. -/
theorem C3_median_iteration_outputs_witness :
    (writesOf (iterMed [1, 9, 2, 8, 3, 7, 4, 6, 5, 5])).length = 10 ∧
    writesOf (iterMed [1, 9, 2, 8, 3, 7, 4, 6, 5, 5]) =
      [1, 2, 8, 3, 7, 4, 6, 5, 5, 5] :=
  ⟨(C3_median_iteration_outputs [1, 9, 2, 8, 3, 7, 4, 6, 5, 5] (by decide)).1,
   (C3_median_iteration_outputs [1, 9, 2, 8, 3, 7, 4, 6, 5, 5]
      (by decide)).2.2⟩

/-- C4: after sampling and padding, the padded array of a 10-sample
window has length 12, its element at index 0 equals its element at index
1, and its element at index 11 equals its element at index 10. -/
theorem C4_padded_window_edges (s : List Nat) (hlen : s.length = 10) :
    (paddedVoltage s).length = 12 ∧
    (paddedVoltage s).getD 0 0 = (paddedVoltage s).getD 1 0 ∧
    (paddedVoltage s).getD 11 0 = (paddedVoltage s).getD 10 0 := by
  refine ⟨by simp [paddedVoltage, hlen], ?_, ?_⟩ <;>
    simp [paddedVoltage, NUM_SAMPLES, List.getD, List.getElem?_append, hlen,
      List.getElem_append_left]

/-- C4 witness: the claim instantiated at a concrete 10-sample window. -/
theorem C4_padded_window_edges_witness :
    (paddedVoltage [1, 9, 2, 8, 3, 7, 4, 6, 5, 5]).length = 12 ∧
    (paddedVoltage [1, 9, 2, 8, 3, 7, 4, 6, 5, 5]).getD 0 0 =
      (paddedVoltage [1, 9, 2, 8, 3, 7, 4, 6, 5, 5]).getD 1 0 ∧
    (paddedVoltage [1, 9, 2, 8, 3, 7, 4, 6, 5, 5]).getD 11 0 =
      (paddedVoltage [1, 9, 2, 8, 3, 7, 4, 6, 5, 5]).getD 10 0 :=
  C4_padded_window_edges [1, 9, 2, 8, 3, 7, 4, 6, 5, 5] (by decide)

/-- C5: the 16-bit accumulation of five 8-bit samples never wraps: the
sum is computed exactly (its maximum 5 * 255 = 1275 fits in 16 bits). -/
theorem C5_sum_no_overflow (a b c d e : Nat)
    (ha : a < 256) (hb : b < 256) (hc : c < 256) (hd : d < 256)
    (he : e < 256) :
    sum_voltage [a, b, c, d, e] = a + b + c + d + e := by
  simp [sum_voltage]
  omega

/-- C5 witness: the claim instantiated at the maximal samples. -/
theorem C5_sum_no_overflow_witness :
    sum_voltage [255, 255, 255, 255, 255] = 1275 :=
  C5_sum_no_overflow 255 255 255 255 255 (by decide) (by decide) (by decide)
    (by decide) (by decide)

/-- C8: for five 8-bit samples the truncated quotient sum / 5 is at most
255, so the narrowing store into the 8-bit avg_voltage loses nothing: the
emitted byte equals sum / 5 exactly. -/
theorem C8_narrowing_lossless (a b c d e : Nat)
    (ha : a < 256) (hb : b < 256) (hc : c < 256) (hd : d < 256)
    (he : e < 256) :
    sum_voltage [a, b, c, d, e] / 5 ≤ 255 ∧
    avg_voltage [a, b, c, d, e] = sum_voltage [a, b, c, d, e] / 5 := by
  constructor <;> (simp [avg_voltage, sum_voltage]; omega)

/-- C8 witness: the claim instantiated at the maximal samples. -/
theorem C8_narrowing_lossless_witness :
    sum_voltage [255, 255, 255, 255, 255] / 5 ≤ 255 ∧
    avg_voltage [255, 255, 255, 255, 255] =
      sum_voltage [255, 255, 255, 255, 255] / 5 :=
  C8_narrowing_lossless 255 255 255 255 255 (by decide) (by decide)
    (by decide) (by decide) (by decide)

/-- C9: every access to the `voltage` array in the median variant is in
bounds of its 12 elements: the sampling loop writes indices 1..10, the
padding writes indices 0 and 11, and the filtering loop reads indices
i, i+1, i+2 for i in 0..9. -/
theorem C9_voltage_accesses_in_bounds :
    samplingWriteIndices = [1, 2, 3, 4, 5, 6, 7, 8, 9, 10] ∧
    paddingWriteIndices = [0, 11] ∧
    (samplingWriteIndices.all (· < voltageLength) ∧
     paddingWriteIndices.all (· < voltageLength) ∧
     filterReadIndices.all (· < voltageLength)) = true := by
  decide

/-- C10: the median function is symmetric: every permutation of an 8-bit
triplet yields the same median, and median(x,x,x) = x. -/
theorem C10_median_symmetric (a b c : Nat)
    (ha : a < 256) (hb : b < 256) (hc : c < 256) :
    median a b c = median a c b ∧
    median a b c = median b a c ∧
    median a b c = median b c a ∧
    median a b c = median c a b ∧
    median a b c = median c b a ∧
    median a a a = a := by
  refine ⟨?_, ?_, ?_, ?_, ?_, ?_⟩ <;> (simp only [median]; split_ifs <;> omega)

/-- C10 witness: the claim instantiated at the triplet (3, 7, 5). -/
theorem C10_median_symmetric_witness :
    median 3 7 5 = median 5 3 7 ∧ median 3 3 3 = 3 :=
  ⟨(C10_median_symmetric 3 7 5 (by decide) (by decide) (by decide)).2.2.2.1,
   (C10_median_symmetric 3 7 5 (by decide) (by decide) (by decide)).2.2.2.2.2⟩

/-- A trace containing a port-D write has a nonempty write list. -/
theorem writesOf_split_ne (pre post : List Event) (v : Nat) :
    writesOf (pre ++ Event.writeD v :: post) ≠ [] := by
  simp [writesOf, List.filterMap_append, List.filterMap_cons, writeValue]

/-- A trace with no port-D writes vacuously strobes after every write. -/
theorem halfStrobed_of_noWrites (l : List Event) (h : writesOf l = []) :
    halfStrobed l := by
  intro pre v post hl
  exact absurd (hl ▸ h) (writesOf_split_ne pre post v)

/-- `halfStrobed` is preserved by concatenation of traces. -/
theorem halfStrobed_append {l1 l2 : List Event} (h1 : halfStrobed l1)
    (h2 : halfStrobed l2) : halfStrobed (l1 ++ l2) := by
  intro pre v post hl
  rcases List.append_eq_append_iff.mp hl.symm with ⟨a, ha1, ha2⟩ | ⟨a, ha1, ha2⟩
  · cases a with
    | nil =>
      simp at ha2
      exact h2 [] v post ha2.symm
    | cons w rest =>
      simp at ha2
      obtain ⟨hw, hpost⟩ := ha2
      have := h1 pre v rest (by rw [ha1, ← hw])
      simp [hpost, List.any_append, this]
  · exact h2 a v post ha2

/-- Prepending a write-free trace that contains a strobe event to a trace
whose writes are each followed by a strobe gives a trace whose writes are
each surrounded by strobes. -/
theorem strobed_append {l1 l2 : List Event} (hw : writesOf l1 = [])
    (hs : l1.any isStrobeB = true) (h2 : halfStrobed l2) :
    strobed (l1 ++ l2) := by
  intro pre v post hl
  rcases List.append_eq_append_iff.mp hl.symm with ⟨a, ha1, ha2⟩ | ⟨a, ha1, ha2⟩
  · cases a with
    | nil =>
      simp only [List.append_nil] at ha1
      simp only [List.nil_append] at ha2
      refine ⟨ha1 ▸ hs, h2 [] v post ha2.symm⟩
    | cons w rest =>
      simp at ha2
      obtain ⟨hw', hpost⟩ := ha2
      rw [ha1, ← hw'] at hw
      exact absurd hw (writesOf_split_ne pre rest v)
  · refine ⟨?_, h2 a v post ha2⟩
    rw [ha1]
    simp [List.any_append, hs]

/-- The single write of one emission block is followed by a strobe event
within the block. -/
theorem halfStrobed_emit (v : Nat) : halfStrobed (emitEvents v) := by
  intro pre u post hl
  cases pre with
  | nil =>
    simp [emitEvents] at hl
    rw [← hl.2]
    rfl
  | cons w rest =>
    simp [emitEvents] at hl
    obtain ⟨-, htail⟩ := hl
    have hnil : writesOf (rest ++ Event.writeD u :: post) = [] := by
      rw [← htail]
      rfl
    exact absurd hnil (writesOf_split_ne rest post u)

/-- Every write in a run of consecutive emissions is followed by a
strobe event. -/
theorem halfStrobed_emits (vs : List Nat) : halfStrobed (emits vs) := by
  induction vs with
  | nil => exact halfStrobed_of_noWrites [] rfl
  | cons v rest ih => exact halfStrobed_append (halfStrobed_emit v) ih

/-- `halfStrobed` is preserved by flattening a list of traces. -/
theorem halfStrobed_flatten (ls : List (List Event))
    (h : ∀ l ∈ ls, halfStrobed l) : halfStrobed ls.flatten := by
  induction ls with
  | nil => exact halfStrobed_of_noWrites [] rfl
  | cons l rest ih =>
    rw [List.flatten_cons]
    exact halfStrobed_append (h l (by simp))
      (ih fun l2 hl2 => h l2 (by simp [hl2]))

/-- Every write in a moving-average iteration is followed by a strobe
event within the iteration. -/
theorem halfStrobed_iterMA (s : List Nat) : halfStrobed (iterMA s) :=
  halfStrobed_append
    (halfStrobed_of_noWrites _ (writesOf_sampleEvents s))
    (halfStrobed_emit _)

/-- Every write in a median iteration is followed by a strobe event
within the iteration. -/
theorem halfStrobed_iterMed (s : List Nat) : halfStrobed (iterMed s) :=
  halfStrobed_append
    (halfStrobed_of_noWrites _ (writesOf_sampleEvents s))
    (halfStrobed_emits _)

/-- Every write in any run of the moving-average variant has a strobe
event before it and after it. -/
theorem strobed_traceMA (wss : List (List Nat)) : strobed (traceMA wss) :=
  strobed_append rfl rfl
    (halfStrobed_flatten _ (by
      intro l hl
      obtain ⟨s, -, rfl⟩ := List.mem_map.mp hl
      exact halfStrobed_iterMA s))

/-- Every write in any run of the median variant has a strobe event
before it and after it. -/
theorem strobed_traceMed (wss : List (List Nat)) : strobed (traceMed wss) :=
  strobed_append rfl rfl
    (halfStrobed_flatten _ (by
      intro l hl
      obtain ⟨s, -, rfl⟩ := List.mem_map.mp hl
      exact halfStrobed_iterMed s))

/-- C6: the median filtering loop applied to a monotonically increasing
12-element window produces a monotonically non-decreasing output
sequence. -/
theorem C6_monotone_window_monotone_output (w : List Nat)
    (hlen : w.length = 12) (hinc : List.Chain' (· < ·) w) :
    List.Chain' (· ≤ ·) (medianOutputsW w) := by
  rw [List.chain'_iff_get] at hinc ⊢
  intro i hi
  simp only [medianOutputsW, NUM_SAMPLES, List.length_map, List.length_range]
    at hi
  have hg : ∀ j, j + 1 < 12 → w.getD j 0 ≤ w.getD (j + 1) 0 := by
    intro j hj
    have := hinc j (by omega)
    rw [List.getD_eq_getElem _ _ (by omega), List.getD_eq_getElem _ _ (by omega)]
    simp only [List.get_eq_getElem] at this
    omega
  simp only [medianOutputsW, NUM_SAMPLES, List.get_eq_getElem,
    List.getElem_map, List.getElem_range]
  exact median_mono (hg i (by omega)) (hg (i + 1) (by omega))
    (hg (i + 2) (by omega))

/-- C6 witness: the claim instantiated at the strictly increasing window
[0,...,11]. -/
theorem C6_monotone_window_monotone_output_witness :
    List.Chain' (· ≤ ·)
      (medianOutputsW [0, 1, 2, 3, 4, 5, 6, 7, 8, 9, 10, 11]) :=
  C6_monotone_window_monotone_output [0, 1, 2, 3, 4, 5, 6, 7, 8, 9, 10, 11]
    (by decide) (by simp [List.chain'_cons])

/-- C7: in every run of either variant, every write of a reduced value to
the output port has a strobe-pin (PIN_C0) event strictly before it and a
strobe-pin event strictly after it in the event trace. -/
theorem C7_strobe_toggles_around_writes (wss1 wss2 : List (List Nat)) :
    strobed (traceMA wss1) ∧ strobed (traceMed wss2) :=
  ⟨strobed_traceMA wss1, strobed_traceMed wss2⟩

/-- C7 witness: the claim instantiated at concrete one-iteration runs. -/
theorem C7_strobe_toggles_around_writes_witness :
    strobed (traceMA [[2, 4, 6, 8, 10]]) ∧
    strobed (traceMed [[1, 9, 2, 8, 3, 7, 4, 6, 5, 5]]) :=
  C7_strobe_toggles_around_writes [[2, 4, 6, 8, 10]]
    [[1, 9, 2, 8, 3, 7, 4, 6, 5, 5]]
